import Mathlib

/-!
Verification development for the cancellable-promises repository.

The source contains four drafts of the same primitive, an `AbortablePromise`
class wrapped around a native JS `Promise`, exercised by a fake BLE producer
(`Ble.sendRequest`, a 3000 ms timer that resolves with a fixed payload):

* the hook variant (src/index.ts, first draft): the executor receives an
  `onCancel` registration point; `abort` invokes the registered hook (which in
  the BLE example clears the timer and rejects with a hard-coded
  `AbortError`), clears it, and stores the reason in a private field;
* the controller variants (src/index.ts second draft and src/unnamed/part_000):
  an internal `AbortController`; `abort(reason)` is guarded by
  `signal.aborted`, stores the reason and fires the abort event, whose
  listener rejects the promise with `AbortError(reason ?? default)`;
* the external-signal variant (src/index.ts third draft): the constructor
  takes a parent `AbortSignal`, copies an already-aborted status onto a fresh
  internal controller, forwards later parent abort events (with a hard-coded
  reason), and attaches the rejecting listener to the internal signal after
  that copy.

Each variant is embedded as a state machine: JS promise settlement is
first-writer-wins (`settleResolve` / `settleReject` are no-ops on a settled
promise), and DOM `AbortController` semantics are modelled by a monotonic
`aborted` flag whose abort dispatches the currently registered listeners
exactly once (listeners added after the abort never fire, and a second
`abort()` call is a no-op).  Ghost counters (`hookCalls`, `abortEvents`,
`cleanupCalls`) count hook/listener invocations so that the
"exactly once" clauses of the spec are statable.
-/

/-- Test type enum from the source (`TestType`). -/
inductive TestType where
  | LIPID_GLUCOSE
  | BLOOD_PRESSURE
  deriving DecidableEq

/-- Payload produced by the fake BLE operation: `{ data: 50, testType }`. -/
structure BleData where
  data : Nat
  testType : TestType
  deriving DecidableEq

/-- Errors surfaced by the operation: `AbortError(message)` from cancellation,
or the `{ errorType: OPERATION_ERROR, description }` object built in the
executor's catch branch. -/
inductive Err where
  | abortError (message : String)
  | operationError (description : String)
  deriving DecidableEq

/-- Discriminator: is this error the cancellation kind (`AbortError`)? -/
def Err.isAbort : Err → Bool
  | Err.abortError _ => true
  | Err.operationError _ => false

/-- State of a native JS promise: pending, fulfilled, or rejected. -/
inductive PState where
  | pending
  | fulfilled (v : BleData)
  | rejected (e : Err)
  deriving DecidableEq

/-- JS `resolve`: settles a pending promise, silently ignored otherwise. -/
def settleResolve (v : BleData) : PState → PState
  | PState.pending => PState.fulfilled v
  | p => p

/-- JS `reject`: settles a pending promise, silently ignored otherwise. -/
def settleReject (e : Err) : PState → PState
  | PState.pending => PState.rejected e
  | p => p

/-- Default abort reason used throughout the source:
`abort(reason: string = 'Promise was aborted.')`. -/
def defaultMsg : String := "Promise was aborted."

/-- Payload the fake BLE timer resolves with in the demo
(`{ data: 50, testType: BLOOD_PRESSURE }`). -/
def bleData : BleData := { data := 50, testType := TestType.BLOOD_PRESSURE }

namespace HookVariant

/-- State of the hook variant `AbortablePromise` composed with the BLE
executor: the wrapped promise, whether `#onCancel` currently holds the
executor's hook, the `#abortReason` field, whether the 3000 ms timer is still
pending, and a ghost count of hook invocations. -/
structure State where
  promise : PState
  onCancelRegistered : Bool
  abortReason : Option String
  timerActive : Bool
  hookCalls : Nat
  deriving DecidableEq

/-- Events that can reach a constructed hook-variant operation: an
`abort(reason)` call, or the BLE timer firing (which resolves the promise
with the payload). -/
inductive Event where
  | abort (reason : String)
  | timerFires
  deriving DecidableEq

/-- The hook the BLE executor registers via `onCancel`: clear the timer and
reject the promise with the hard-coded `AbortError('Promise was aborted.')`. -/
def runHook (s : State) : State :=
  { s with
      timerActive := false
      promise := settleReject (Err.abortError defaultMsg) s.promise
      hookCalls := s.hookCalls + 1 }

/-- The `abort` method of the hook variant: if a hook is registered, invoke it
and clear it; then unconditionally store the reason in `#abortReason`.  Note
that the method itself never rejects the promise and never reads the stored
reason. -/
def abort (reason : String) (s : State) : State :=
  if s.onCancelRegistered then
    { runHook s with onCancelRegistered := false, abortReason := some reason }
  else
    { s with abortReason := some reason }

/-- One step of the hook-variant machine. -/
def step : Event → State → State
  | Event.abort r, s => abort r s
  | Event.timerFires, s =>
      if s.timerActive then
        { s with timerActive := false, promise := settleResolve bleData s.promise }
      else s

/-- Run a sequence of events. -/
def run (evs : List Event) (s : State) : State :=
  evs.foldl (fun t e => step e t) s

/-- State right after construction: the promise is pending, the timer was
started by the executor, and the hook is registered iff the executor called
the `onCancel` registration point (the BLE executor does; `init false` models
an executor that never registers a hook). -/
def init (hookRegistered : Bool) : State :=
  { promise := PState.pending
    onCancelRegistered := hookRegistered
    abortReason := none
    timerActive := true
    hookCalls := 0 }

end HookVariant

namespace CtrlVariant

/-- State of the controller variants (second draft of src/index.ts and
src/unnamed/part_000): the wrapped promise, the internal controller's
`aborted` flag, the `#abortReason` field, whether the 3000 ms timer is still
pending, and a ghost count of abort-event dispatches. -/
structure State where
  promise : PState
  aborted : Bool
  abortReason : Option String
  timerActive : Bool
  abortEvents : Nat
  deriving DecidableEq

/-- Events that can reach a constructed controller-variant operation: an
`abort(reason)` call, the BLE timer firing, or the underlying computation
throwing (the executor's catch branch). -/
inductive Event where
  | abort (reason : String)
  | timerFires
  | opFails (description : String)
  deriving DecidableEq

/-- The abort-event listener the constructor registers on the internal
signal: reject the promise with `AbortError(#abortReason ?? default)`. -/
def internalRejectListener (s : State) : State :=
  { s with promise := settleReject (Err.abortError (s.abortReason.getD defaultMsg)) s.promise }

/-- The `abort` method: a no-op when the internal signal is already aborted;
otherwise store the reason, abort the controller, and dispatch the abort
event to the registered listener. -/
def abort (reason : String) (s : State) : State :=
  if s.aborted then s
  else
    internalRejectListener
      { s with aborted := true, abortReason := some reason, abortEvents := s.abortEvents + 1 }

/-- One step of the controller-variant machine.  `opFails` models the
executor's catch branch rejecting with
`{ errorType: OPERATION_ERROR, description }`. -/
def step : Event → State → State
  | Event.abort r, s => abort r s
  | Event.timerFires, s =>
      if s.timerActive then
        { s with timerActive := false, promise := settleResolve bleData s.promise }
      else s
  | Event.opFails d, s =>
      { s with promise := settleReject (Err.operationError d) s.promise }

/-- Run a sequence of events. -/
def run (evs : List Event) (s : State) : State :=
  evs.foldl (fun t e => step e t) s

/-- State right after `Ble.sendRequest` in src/unnamed/part_000: pending
promise, live internal signal, timer started; no cleanup listener exists in
that draft, so an abort never clears the timer. -/
def init : State :=
  { promise := PState.pending
    aborted := false
    abortReason := none
    timerActive := true
    abortEvents := 0 }

end CtrlVariant

namespace SignalVariant

/-- Listeners registered on the supplied parent signal: the constructor's
forwarding listener (lines 273-278) and the BLE cleanup listener
(lines 346-350), in registration order. -/
inductive ParentListener where
  | forwardAbort
  | bleCleanup
  deriving DecidableEq

/-- Listener registered on the internal controller's signal: the rejecting
listener attached inside the promise executor (lines 281-283). -/
inductive ChildListener where
  | internalReject
  deriving DecidableEq

/-- State of the external-signal variant: the parent signal (aborted flag,
the reason its abort carried, its listener list), the internal child
controller (aborted flag, listener list), the `#abortReason` field, the
wrapped promise, the timer, and a ghost count of cleanup-listener runs. -/
structure State where
  parentAborted : Bool
  parentReason : Option String
  parentListeners : List ParentListener
  childAborted : Bool
  childListeners : List ChildListener
  abortReason : Option String
  promise : PState
  timerActive : Bool
  cleanupCalls : Nat
  deriving DecidableEq

/-- Effect of a child-signal listener. -/
def runChildListener : ChildListener → State → State
  | ChildListener.internalReject, s =>
      { s with promise := settleReject (Err.abortError (s.abortReason.getD defaultMsg)) s.promise }

/-- Abort of the internal controller: a no-op if already aborted, otherwise
set the flag and dispatch to the currently registered child listeners. -/
def childAbort (s : State) : State :=
  if s.childAborted then s
  else s.childListeners.foldl (fun t l => runChildListener l t) { s with childAborted := true }

/-- Effect of a parent-signal listener.  `forwardAbort` is the constructor's
listener: if the internal signal is not yet aborted, set `#abortReason` to
the hard-coded string and abort the internal controller.  `bleCleanup` clears
the BLE timer. -/
def runParentListener : ParentListener → State → State
  | ParentListener.forwardAbort, s =>
      if s.childAborted then s
      else childAbort { s with abortReason := some "Promise was aborted." }
  | ParentListener.bleCleanup, s =>
      { s with timerActive := false, cleanupCalls := s.cleanupCalls + 1 }

/-- Abort of the parent controller (the driver calls
`abortController.abort()`): a no-op if already aborted, otherwise record the
carried reason, set the flag, and dispatch to the currently registered parent
listeners. -/
def parentAbort (r : Option String) (s : State) : State :=
  if s.parentAborted then s
  else
    s.parentListeners.foldl (fun t l => runParentListener l t)
      { s with parentAborted := true, parentReason := r }

/-- Construction of the external-signal variant composed with
`Ble.sendRequest`, replayed in source order: fresh internal controller; if
the parent signal is already aborted, abort the internal controller (no
listeners are registered on it yet); register the forwarding listener on the
parent; register the rejecting listener on the internal signal; run the
executor (which starts the timer); finally `sendRequest` registers the BLE
cleanup listener on the parent signal. -/
def construct (parentAborted0 : Bool) (parentReason0 : Option String) : State :=
  let s0 : State :=
    { parentAborted := parentAborted0
      parentReason := parentReason0
      parentListeners := []
      childAborted := false
      childListeners := []
      abortReason := none
      promise := PState.pending
      timerActive := false
      cleanupCalls := 0 }
  let s1 := if parentAborted0 then childAbort s0 else s0
  let s2 := { s1 with parentListeners := s1.parentListeners ++ [ParentListener.forwardAbort] }
  let s3 := { s2 with childListeners := s2.childListeners ++ [ChildListener.internalReject] }
  let s4 := { s3 with timerActive := true }
  { s4 with parentListeners := s4.parentListeners ++ [ParentListener.bleCleanup] }

/-- Events that can reach a constructed external-signal operation: the parent
controller aborting (carrying an optional reason), the BLE timer firing, or a
direct abort of the internal controller. -/
inductive Event where
  | parentAbortReq (reason : Option String)
  | timerFires
  | childAbortReq
  deriving DecidableEq

/-- One step of the external-signal machine. -/
def step : Event → State → State
  | Event.parentAbortReq r, s => parentAbort r s
  | Event.timerFires, s =>
      if s.timerActive then
        { s with timerActive := false, promise := settleResolve bleData s.promise }
      else s
  | Event.childAbortReq, s => childAbort s

/-- Run a sequence of events. -/
def run (evs : List Event) (s : State) : State :=
  evs.foldl (fun t e => step e t) s

/-- Invariant used for the already-aborted-parent scenario: both signals are
aborted and the promise is pending or fulfilled with the BLE payload (in
particular, never rejected). -/
def Inv (s : State) : Prop :=
  s.parentAborted = true ∧ s.childAborted = true ∧
    (s.promise = PState.pending ∨ s.promise = PState.fulfilled bleData)

end SignalVariant

/-! Helper lemmas: first-writer-wins stability of the wrapped promise. -/

theorem settleResolve_of_ne (v : BleData) (p : PState) (h : p ≠ PState.pending) :
    settleResolve v p = p := by
  cases p with
  | pending => exact absurd rfl h
  | fulfilled w => rfl
  | rejected e => rfl

theorem settleReject_of_ne (e : Err) (p : PState) (h : p ≠ PState.pending) :
    settleReject e p = p := by
  cases p with
  | pending => exact absurd rfl h
  | fulfilled w => rfl
  | rejected e0 => rfl

theorem HookVariant.hookStepStable (e : HookVariant.Event) (s : HookVariant.State)
    (h : s.promise ≠ PState.pending) :
    (HookVariant.step e s).promise = s.promise := by
  cases e with
  | abort r =>
      show (HookVariant.abort r s).promise = s.promise
      unfold HookVariant.abort HookVariant.runHook
      by_cases hc : s.onCancelRegistered
      · simp [hc, settleReject_of_ne _ _ h]
      · simp [hc]
  | timerFires =>
      simp only [HookVariant.step]
      by_cases ht : s.timerActive
      · simp [ht, settleResolve_of_ne _ _ h]
      · simp [ht]

theorem HookVariant.hookRunStable (evs : List HookVariant.Event) :
    ∀ s : HookVariant.State, s.promise ≠ PState.pending →
      (HookVariant.run evs s).promise = s.promise := by
  induction evs with
  | nil => intro s h; rfl
  | cons e t ih =>
      intro s h
      have h1 : (HookVariant.step e s).promise = s.promise :=
        HookVariant.hookStepStable e s h
      have h2 : (HookVariant.run t (HookVariant.step e s)).promise
          = (HookVariant.step e s).promise := ih _ (by rw [h1]; exact h)
      calc (HookVariant.run (e :: t) s).promise
          = (HookVariant.run t (HookVariant.step e s)).promise := rfl
        _ = s.promise := by rw [h2, h1]

theorem CtrlVariant.ctrlStepStable (e : CtrlVariant.Event) (s : CtrlVariant.State)
    (h : s.promise ≠ PState.pending) :
    (CtrlVariant.step e s).promise = s.promise := by
  cases e with
  | abort r =>
      show (CtrlVariant.abort r s).promise = s.promise
      unfold CtrlVariant.abort CtrlVariant.internalRejectListener
      by_cases ha : s.aborted
      · simp [ha]
      · simp [ha, settleReject_of_ne _ _ h]
  | timerFires =>
      simp only [CtrlVariant.step]
      by_cases ht : s.timerActive
      · simp [ht, settleResolve_of_ne _ _ h]
      · simp [ht]
  | opFails d =>
      simp only [CtrlVariant.step]
      simp [settleReject_of_ne _ _ h]

theorem CtrlVariant.ctrlRunStable (evs : List CtrlVariant.Event) :
    ∀ s : CtrlVariant.State, s.promise ≠ PState.pending →
      (CtrlVariant.run evs s).promise = s.promise := by
  induction evs with
  | nil => intro s h; rfl
  | cons e t ih =>
      intro s h
      have h1 : (CtrlVariant.step e s).promise = s.promise :=
        CtrlVariant.ctrlStepStable e s h
      have h2 : (CtrlVariant.run t (CtrlVariant.step e s)).promise
          = (CtrlVariant.step e s).promise := ih _ (by rw [h1]; exact h)
      calc (CtrlVariant.run (e :: t) s).promise
          = (CtrlVariant.run t (CtrlVariant.step e s)).promise := rfl
        _ = s.promise := by rw [h2, h1]

/-! Helper lemmas for the external-signal variant. -/

theorem SignalVariant.runChildListener_parentAborted (l : SignalVariant.ChildListener)
    (t : SignalVariant.State) :
    (SignalVariant.runChildListener l t).parentAborted = t.parentAborted := by
  cases l; rfl

theorem SignalVariant.foldl_child_parentAborted (ls : List SignalVariant.ChildListener) :
    ∀ t : SignalVariant.State,
      (ls.foldl (fun u l => SignalVariant.runChildListener l u) t).parentAborted
        = t.parentAborted := by
  induction ls with
  | nil => intro t; rfl
  | cons l ls ih =>
      intro t
      rw [List.foldl_cons, ih, SignalVariant.runChildListener_parentAborted]

theorem SignalVariant.childAbort_parentAborted (s : SignalVariant.State) :
    (SignalVariant.childAbort s).parentAborted = s.parentAborted := by
  unfold SignalVariant.childAbort
  by_cases hc : s.childAborted
  · simp [hc]
  · simp [hc, SignalVariant.foldl_child_parentAborted]

theorem SignalVariant.step_inv (e : SignalVariant.Event) (s : SignalVariant.State)
    (h : SignalVariant.Inv s) : SignalVariant.Inv (SignalVariant.step e s) := by
  obtain ⟨hp, hc, hpr⟩ := h
  cases e with
  | parentAbortReq r =>
      show SignalVariant.Inv (SignalVariant.parentAbort r s)
      unfold SignalVariant.parentAbort
      simp only [hp, if_true]
      exact ⟨hp, hc, hpr⟩
  | childAbortReq =>
      show SignalVariant.Inv (SignalVariant.childAbort s)
      unfold SignalVariant.childAbort
      simp only [hc, if_true]
      exact ⟨hp, hc, hpr⟩
  | timerFires =>
      simp only [SignalVariant.step]
      by_cases ht : s.timerActive
      · simp only [ht, if_true]
        refine ⟨hp, hc, ?_⟩
        rcases hpr with h1 | h1 <;> rw [h1] <;> simp [settleResolve]
      · simp only [ht, if_false]
        exact ⟨hp, hc, hpr⟩

theorem SignalVariant.run_inv (evs : List SignalVariant.Event) :
    ∀ s : SignalVariant.State, SignalVariant.Inv s →
      SignalVariant.Inv (SignalVariant.run evs s) := by
  induction evs with
  | nil => intro s h; exact h
  | cons e t ih =>
      intro s h
      exact ih _ (SignalVariant.step_inv e s h)

/-! Claim theorems. -/

/-- C1: calling abort strictly before the producer settles.  Evaluated at the
demo input (the driver calls `abort` with reason "User initiated abort."
while the timer is still pending).  In the hook variant the operation does
settle Rejected with the cancellation kind and the hook runs exactly once,
but the surfaced message is the hook's hard-coded default, not the reason
passed to `abort` (which is stored in `#abortReason` and never read), even
though the method's own comment claims it rejects with the reason; in the
controller variant the same input rejects with the given reason, as the
claim states. -/
theorem claim_C1_divergence :
    (HookVariant.step (HookVariant.Event.abort "User initiated abort.")
        (HookVariant.init true)).promise
      = PState.rejected (Err.abortError "Promise was aborted.")
    ∧ (HookVariant.step (HookVariant.Event.abort "User initiated abort.")
        (HookVariant.init true)).hookCalls = 1
    ∧ (("Promise was aborted." : String) == "User initiated abort.") = false
    ∧ (CtrlVariant.step (CtrlVariant.Event.abort "User initiated abort.")
        CtrlVariant.init).promise
      = PState.rejected (Err.abortError "User initiated abort.") := by
  refine ⟨rfl, rfl, ?_, rfl⟩
  decide

/-- C2: the operation settles at most once and a terminal state is never
overwritten: in both the hook variant and the controller variants, once the
wrapped promise is not pending, no sequence of further events (abort calls,
timer firing, producer failure) changes it; and the settling transition does
happen (the timer event fulfills a pending operation). -/
theorem claim_C2 :
    (∀ (s : HookVariant.State) (evs : List HookVariant.Event),
        s.promise ≠ PState.pending → (HookVariant.run evs s).promise = s.promise)
    ∧ (∀ (s : CtrlVariant.State) (evs : List CtrlVariant.Event),
        s.promise ≠ PState.pending → (CtrlVariant.run evs s).promise = s.promise)
    ∧ (CtrlVariant.run [CtrlVariant.Event.timerFires] CtrlVariant.init).promise
        = PState.fulfilled bleData := by
  refine ⟨?_, ?_, rfl⟩
  · intro s evs h
    exact HookVariant.hookRunStable evs s h
  · intro s evs h
    exact CtrlVariant.ctrlRunStable evs s h

/-- Witness for C2 at a concrete settled state: a fulfilled hook-variant
operation is unchanged by a subsequent abort event. -/
theorem claim_C2_witness :
    (HookVariant.run [HookVariant.Event.abort "late"]
        { promise := PState.fulfilled bleData
          onCancelRegistered := true
          abortReason := none
          timerActive := false
          hookCalls := 0 }).promise
      = PState.fulfilled bleData :=
  claim_C2.1
    { promise := PState.fulfilled bleData
      onCancelRegistered := true
      abortReason := none
      timerActive := false
      hookCalls := 0 }
    [HookVariant.Event.abort "late"] (by decide)

/-- C3 counterexample: in the hook variant, after the producer resolves
(timer fires) a subsequent abort leaves the outcome unchanged, but it does
invoke the registered cleanup hook (the hook-invocation count is 1, not 0 as
the claim requires), because `abort` calls `#onCancel` without checking
whether the promise has settled. -/
theorem claim_C3_counterexample :
    (HookVariant.step HookVariant.Event.timerFires (HookVariant.init true)).promise
      = PState.fulfilled bleData
    ∧ (HookVariant.step (HookVariant.Event.abort "User initiated abort.")
        (HookVariant.step HookVariant.Event.timerFires (HookVariant.init true))).promise
      = PState.fulfilled bleData
    ∧ ((HookVariant.step (HookVariant.Event.abort "User initiated abort.")
        (HookVariant.step HookVariant.Event.timerFires (HookVariant.init true))).hookCalls
          == 0) = false :=
  ⟨rfl, rfl, rfl⟩

/-- C3 as amended: when the producer settles strictly before abort, the
operation keeps the producer outcome and the later abort call does not throw
(it is a total state update), but in the hook variant it does invoke the
registered cleanup hook exactly once; in the controller variant the outcome
is likewise preserved. -/
theorem claim_C3_amended_thm : ∀ r : String,
    (HookVariant.step (HookVariant.Event.abort r)
        (HookVariant.step HookVariant.Event.timerFires (HookVariant.init true))).promise
      = PState.fulfilled bleData
    ∧ (HookVariant.step (HookVariant.Event.abort r)
        (HookVariant.step HookVariant.Event.timerFires (HookVariant.init true))).hookCalls = 1
    ∧ (CtrlVariant.step (CtrlVariant.Event.abort r)
        (CtrlVariant.step CtrlVariant.Event.timerFires CtrlVariant.init)).promise
      = PState.fulfilled bleData :=
  fun r => ⟨rfl, rfl, rfl⟩

/-- C4 counterexample: in the hook variant, calling abort twice is not
equivalent to calling it once: the stored abort reason after
`abort "a"; abort "b"` is `some "b"`, different from the `some "a"` stored
after a single call, because `abort` assigns `#abortReason` unconditionally
on every call. -/
theorem claim_C4_counterexample :
    (HookVariant.step (HookVariant.Event.abort "a") (HookVariant.init true)).abortReason
      = some "a"
    ∧ (HookVariant.step (HookVariant.Event.abort "b")
        (HookVariant.step (HookVariant.Event.abort "a") (HookVariant.init true))).abortReason
      = some "b"
    ∧ ((HookVariant.step (HookVariant.Event.abort "b")
        (HookVariant.step (HookVariant.Event.abort "a") (HookVariant.init true))).abortReason
          == (HookVariant.step (HookVariant.Event.abort "a")
              (HookVariant.init true)).abortReason) = false := by
  refine ⟨rfl, rfl, ?_⟩
  decide

/-- C4 as amended: in the controller variants a second abort call is a
complete no-op (the resulting state is identical), the stored reason reflects
the first call and the abort event is dispatched exactly once; in the hook
variant the hook still fires only once across both calls, but the stored
abort reason is overwritten by each call and reflects the last call. -/
theorem claim_C4_amended_thm : ∀ r1 r2 : String,
    CtrlVariant.step (CtrlVariant.Event.abort r2)
        (CtrlVariant.step (CtrlVariant.Event.abort r1) CtrlVariant.init)
      = CtrlVariant.step (CtrlVariant.Event.abort r1) CtrlVariant.init
    ∧ (CtrlVariant.step (CtrlVariant.Event.abort r1) CtrlVariant.init).abortReason = some r1
    ∧ (CtrlVariant.step (CtrlVariant.Event.abort r1) CtrlVariant.init).abortEvents = 1
    ∧ (CtrlVariant.step (CtrlVariant.Event.abort r2)
        (CtrlVariant.step (CtrlVariant.Event.abort r2)
          (CtrlVariant.step (CtrlVariant.Event.abort r1) CtrlVariant.init))).abortEvents = 1
    ∧ (HookVariant.step (HookVariant.Event.abort r2)
        (HookVariant.step (HookVariant.Event.abort r1) (HookVariant.init true))).hookCalls = 1
    ∧ (HookVariant.step (HookVariant.Event.abort r2)
        (HookVariant.step (HookVariant.Event.abort r1) (HookVariant.init true))).abortReason
      = some r2 :=
  fun r1 r2 => ⟨rfl, rfl, rfl, rfl, rfl, rfl⟩

/-- C5: parent/child signal coupling in the external-signal variant: a child
controller derived from an already-aborted parent starts aborted; a child
derived from a live parent becomes aborted when the parent aborts; and
aborting the child controller never changes the parent's aborted flag. -/
theorem claim_C5 :
    (∀ r0 : Option String, (SignalVariant.construct true r0).childAborted = true)
    ∧ (∀ r : Option String,
        (SignalVariant.run [SignalVariant.Event.parentAbortReq r]
          (SignalVariant.construct false none)).childAborted = true)
    ∧ (∀ s : SignalVariant.State,
        (SignalVariant.childAbort s).parentAborted = s.parentAborted) := by
  refine ⟨fun r0 => rfl, fun r => rfl, ?_⟩
  intro s
  exact SignalVariant.childAbort_parentAborted s

/-- C6: in the controller variant (src/unnamed/part_000), once the operation
has settled via cancellation, every later event, including the timer
delivering the late producer result or the producer failing, leaves the
terminal state Rejected with the cancellation error carrying the abort
reason; the late result is never surfaced. -/
theorem claim_C6 : ∀ (r : String) (evs : List CtrlVariant.Event),
    (CtrlVariant.run evs
        (CtrlVariant.step (CtrlVariant.Event.abort r) CtrlVariant.init)).promise
      = PState.rejected (Err.abortError r) := by
  intro r evs
  have h1 : (CtrlVariant.step (CtrlVariant.Event.abort r) CtrlVariant.init).promise
      = PState.rejected (Err.abortError r) := rfl
  rw [CtrlVariant.ctrlRunStable evs _ (by rw [h1]; simp), h1]

/-- C7: when the underlying computation fails before any cancellation, the
executor's catch branch settles the operation Rejected with the
OperationFailed-kind error wrapping the underlying cause, and that error kind
is distinct from the cancellation kind. -/
theorem claim_C7 : ∀ d : String,
    (CtrlVariant.step (CtrlVariant.Event.opFails d) CtrlVariant.init).promise
      = PState.rejected (Err.operationError d)
    ∧ (Err.operationError d).isAbort = false
    ∧ ∀ m : String, (Err.abortError m).isAbort = true :=
  fun d => ⟨rfl, rfl, fun m => rfl⟩

/-- C8: in the hook variant, if the executor never registers a hook, calling
abort (once or twice, with any reasons) before settlement invokes no hook and
does not reject the operation: the wrapped promise remains pending. -/
theorem claim_C8 : ∀ r1 r2 : String,
    (HookVariant.step (HookVariant.Event.abort r1) (HookVariant.init false)).promise
      = PState.pending
    ∧ (HookVariant.step (HookVariant.Event.abort r1) (HookVariant.init false)).hookCalls = 0
    ∧ (HookVariant.step (HookVariant.Event.abort r2)
        (HookVariant.step (HookVariant.Event.abort r1) (HookVariant.init false))).promise
      = PState.pending :=
  fun r1 r2 => ⟨rfl, rfl, rfl⟩

/-- C9: in the external-signal variant, constructing from an already-aborted
parent signal leaves the internal signal aborted but the promise pending, and
under every sequence of subsequent events the promise is only ever pending or
fulfilled with the producer payload: the Aborted rejection is never
delivered, because the rejecting listener was attached after the internal
controller had already aborted. -/
theorem claim_C9 : ∀ (r0 : Option String) (evs : List SignalVariant.Event),
    (SignalVariant.construct true r0).childAborted = true
    ∧ (SignalVariant.construct true r0).promise = PState.pending
    ∧ ((SignalVariant.run evs (SignalVariant.construct true r0)).promise = PState.pending
        ∨ (SignalVariant.run evs (SignalVariant.construct true r0)).promise
            = PState.fulfilled bleData) := by
  intro r0 evs
  refine ⟨rfl, rfl, ?_⟩
  have h0 : SignalVariant.Inv (SignalVariant.construct true r0) :=
    ⟨rfl, rfl, Or.inl rfl⟩
  exact (SignalVariant.run_inv evs _ h0).2.2

/-- C10: in the external-signal variant, whatever reason the parent signal's
abort carries, a parent abort delivered after construction (while the
operation is pending) settles the operation Rejected with the AbortError
whose message is the fixed string, so the parent's reason is never
propagated into the surfaced error. -/
theorem claim_C10 : ∀ r : Option String,
    (SignalVariant.run [SignalVariant.Event.parentAbortReq r]
        (SignalVariant.construct false none)).promise
      = PState.rejected (Err.abortError "Promise was aborted.") :=
  fun r => rfl
